import Mathlib

/-!
# SarvaMind response-processing core: a shallow embedding

This file embeds the string-processing core of the SarvaMind chat client
(response sanitizer, Levenshtein similarity, conversation context builder,
AI gateway adapter, session/history manager) as executable Lean functions,
and proves or refutes the specification claims about them.

JavaScript strings are modelled as `List Char` (ASCII-level semantics for
`toLowerCase`/`trim`, which is what the program's own string constants use).
`Math.random()` choices are modelled as an explicit `Fin` parameter, and
network interactions (`fetch`) as an explicit outcome value.
-/

set_option maxRecDepth 10000

namespace SarvaMind

/-! ## JavaScript string primitives -/

/-- ASCII `String.prototype.toLowerCase` on a single character:
`A`–`Z` maps to `a`–`z`, everything else is unchanged. -/
def jsLowerChar (c : Char) : Char :=
  if 65 ≤ c.toNat ∧ c.toNat ≤ 90 then Char.ofNat (c.toNat + 32) else c

/-- `String.prototype.toLowerCase`. -/
def toLowerCase (s : List Char) : List Char := s.map jsLowerChar

/-- `String.prototype.trim`: drop leading and trailing whitespace. -/
def jsTrim (s : List Char) : List Char :=
  ((s.dropWhile Char.isWhitespace).reverse.dropWhile Char.isWhitespace).reverse

/-- `a.startsWith b` / regular-expression test `^b`. -/
def jsStartsWith (s pre : List Char) : Bool := pre.isPrefixOf s

/-- `String.prototype.includes`: `sub` occurs as a contiguous substring of `s`. -/
def jsIncludes (s sub : List Char) : Bool :=
  match s with
  | [] => sub.isPrefixOf ([] : List Char)
  | c :: rest => sub.isPrefixOf (c :: rest) || jsIncludes rest sub

/-- Fuel-indexed worker for `String.prototype.split` with a non-empty
separator string; `acc` is the current chunk, reversed. -/
def splitLoop (sep : List Char) : Nat → List Char → List Char → List (List Char)
  | 0, rest, acc => [acc.reverse ++ rest]
  | fuel + 1, rest, acc =>
    if sep ≠ [] ∧ sep.isPrefixOf rest then
      acc.reverse :: splitLoop sep fuel (rest.drop sep.length) []
    else
      match rest with
      | [] => [acc.reverse]
      | c :: rest2 => splitLoop sep fuel rest2 (c :: acc)

/-- `String.prototype.split(sep)` for a non-empty string separator:
leftmost non-overlapping occurrences delimit the chunks.  (The program
only ever splits on non-empty separators; a degenerate empty separator
returns the string whole.) -/
def jsSplit (sep s : List Char) : List (List Char) :=
  splitLoop sep (s.length + 1) s []

/-- `Array.prototype.slice(-n)` on a list: the last `n` elements
(the whole list when it is shorter than `n`). -/
def lastN (n : Nat) (l : List α) : List α := l.drop (l.length - n)

/-! ## Levenshtein distance (`levenshteinDistance` in `GeminiAI.tsx`)

The source builds the full dynamic-programming matrix row by row:
`matrix[i][j]` (row `i` indexed by `str2`, column `j` indexed by `str1`)
with `matrix[0][j] = j`, `matrix[i][0] = i`, and
`matrix[i][j] = matrix[i-1][j-1]` when `str2[i-1] == str1[j-1]`, else
`1 + min(matrix[i-1][j-1], matrix[i][j-1], matrix[i-1][j])`.
`levNext` computes row `i` from row `i-1` left to right (`left` is the
entry just written, i.e. `matrix[i][j-1]`), and `levAll` folds over the
characters of `str2`. -/

/-- One cell-by-cell step of the DP: given the remaining characters of
`str1`, the previous row from column `j-1` on, and the value written at
column `j-1` of the current row, produce the current row from column `j` on. -/
def levNext (c2 : Char) : List Char → List Nat → Nat → List Nat
  | [], _, _ => []
  | _ :: _, [], _ => []
  | x :: xs, d :: rest, left =>
    let cur := if c2 = x then d
               else min (d + 1) (min (left + 1) (rest.headD 0 + 1))
    cur :: levNext c2 xs rest cur

/-- Compute the next full row of the DP matrix from the previous one. -/
def levStep (s1 : List Char) (prev : List Nat) (c2 : Char) : List Nat :=
  (prev.headD 0 + 1) :: levNext c2 s1 prev (prev.headD 0 + 1)

/-- All rows of the DP matrix folded down to the last row. -/
def levAll (s1 s2 : List Char) : List Nat :=
  s2.foldl (levStep s1) (List.range (s1.length + 1))

/-- `levenshteinDistance(str1, str2)`: the bottom-right entry
`matrix[str2.length][str1.length]` of the DP matrix. -/
def levenshteinDistance (s1 s2 : List Char) : Nat :=
  (levAll s1 s2).getLastD 0

/-- The classic textbook Levenshtein recursion (insertion, deletion and
substitution each cost 1), used as the specification that the iterative
DP above is checked against. -/
def levSpec : List Char → List Char → Nat
  | [], v => v.length
  | _ :: u, [] => u.length + 1
  | x :: u, y :: v =>
    if x = y then levSpec u v
    else 1 + min (levSpec u v) (min (levSpec (x :: u) v) (levSpec u (y :: v)))
termination_by u v => u.length + v.length
decreasing_by all_goals simp [List.length_cons] <;> omega

/-- The intended contents of one DP row: entry `j` of the row for the
consumed prefix `p` of `str2` is the edit distance between the first `j`
characters of `str1` and `p`.  Here `r` is the reversed consumed prefix of
`str1` and `q` the reversed `p`, so that the row reads
`[levSpec r q, levSpec (x1 :: r) q, ...]` along the remaining characters
`x1, x2, ...` of `str1`. -/
def rowFor (q : List Char) : List Char → List Char → List Nat
  | r, [] => [levSpec r q]
  | r, x :: xs => levSpec r q :: rowFor q (x :: r) xs

/-! ## `calculateSimilarity` (`GeminiAI.tsx`)

JavaScript computes the quotient in floating point; the embedding uses `ℚ`,
which agrees with the exact value of `(longer.length - editDistance) /
longer.length` the program intends. -/

def calculateSimilarity (str1 str2 : List Char) : ℚ :=
  let longer := if str1.length > str2.length then str1 else str2
  let shorter := if str1.length > str2.length then str2 else str1
  if longer.length = 0 then 1
  else mkRat ((longer.length : ℤ) - (levenshteinDistance longer shorter : ℤ)) longer.length

/-! ## Response sanitizer (`cleanAndValidateResponse` in `GeminiAI.tsx`) -/

/-- The label prefixes removed from the start of a raw model response
(each tested case-insensitively, with trailing whitespace absorbed). -/
def prefixLabels : List (List Char) :=
  ["user query:".toList, "assistant response:".toList, "user:".toList,
   "assistant:".toList, "ai:".toList, "sarvamind:".toList, "gemini:".toList,
   "response:".toList, "answer:".toList, "here is the response:".toList,
   "here\x27s the response:".toList]

/-- One pass of `cleaned.replace(new RegExp(startAnchor + label + wsRun, i), empty).trim()`:
when the (lower-case) label matches at the start case-insensitively, drop it,
absorb the following whitespace run, and trim. -/
def stripOneLabel (s lab : List Char) : List Char :=
  if jsStartsWith (toLowerCase s) lab then
    jsTrim ((s.drop lab.length).dropWhile Char.isWhitespace)
  else s

/-- The `for (const prefix of prefixesToRemove)` loop of
`cleanAndValidateResponse`, applied in source order. -/
def stripLabels (s : List Char) : List Char :=
  prefixLabels.foldl stripOneLabel s

/-- The fixed list of low-value filler phrases checked by
`isEchoOrPoorResponse`. -/
def poorResponses : List (List Char) :=
  ["i understand your message".toList, "thank you for sharing".toList,
   "i see what you mean".toList, "that makes sense".toList,
   "i comprehend".toList, "how can i assist you further".toList,
   "what can i help with".toList]

/-- `isEchoOrPoorResponse(userMessage, aiResponse)`: detects when the model
output is an echo of the input or a generic filler.  The float threshold
`0.8` of the source is the exact rational `4/5`. -/
def isEchoOrPoorResponse (userMessage aiResponse : List Char) : Bool :=
  let userLower := jsTrim (toLowerCase userMessage)
  let aiLower := jsTrim (toLowerCase aiResponse)
  if userLower = aiLower then true
  else if jsStartsWith aiLower userLower ∧ aiLower.length < userLower.length + 30 then true
  else if mkRat 4 5 < calculateSimilarity userLower aiLower then true
  else poorResponses.any (fun poor => jsIncludes aiLower poor && aiLower.length < 80)

/-- The pool of generic fallbacks `generateContextualFallback` samples from
with `Math.random()`. -/
def fallbackPool : List (List Char) :=
  ["That\x27s an interesting topic. What specific aspect would you like to explore further?".toList,
   "I\x27d be happy to help you with that. Could you provide more details about your question?".toList,
   "Thank you for your message. What would you like to know more about?".toList,
   "I understand you\x27re looking for information. What specific details can I help you with?".toList,
   "That\x27s a good point. How can I assist you in exploring this topic further?".toList]

/-- `generateContextualFallback(message)` of `GeminiAI.tsx`: a keyword-matched
canned reply, or a pool entry chosen by the random index `r`. -/
def generateContextualFallback (message : List Char) (r : Fin 5) : List Char :=
  let messageLower := toLowerCase message
  if jsIncludes messageLower "file".toList || jsIncludes messageLower "upload".toList
      || jsIncludes messageLower "image".toList then
    "I can see you\x27ve shared a file. Let me help you analyze or work with this content. What would you like me to do with it?".toList
  else if jsIncludes messageLower "code".toList || jsIncludes messageLower "program".toList then
    "I can help you with coding questions. What specific programming language or problem are you working on?".toList
  else if jsIncludes messageLower "help".toList || jsIncludes messageLower "assist".toList then
    "I\x27m here to help! Could you provide more details about what you need assistance with?".toList
  else if jsIncludes messageLower "explain".toList || jsIncludes messageLower "what is".toList then
    "I\x27d be happy to explain that for you. Could you be more specific about which aspect you\x27d like me to focus on?".toList
  else if jsIncludes messageLower "how".toList then
    "That\x27s a great question! To give you the most helpful answer, could you provide a bit more context about your situation?".toList
  else if jsIncludes messageLower "image".toList || jsIncludes messageLower "picture".toList
      || jsIncludes messageLower "draw".toList then
    "I can help with image-related questions or generate images based on descriptions. What would you like me to create or explain about images?".toList
  else
    fallbackPool.getD r.val []

/-- Every string `generateContextualFallback` can produce (the six keyword
templates together with the random pool); used to state that a result is,
or is not, "a fallback". -/
def fallbackStrings : List (List Char) :=
  ["I can see you\x27ve shared a file. Let me help you analyze or work with this content. What would you like me to do with it?".toList,
   "I can help you with coding questions. What specific programming language or problem are you working on?".toList,
   "I\x27m here to help! Could you provide more details about what you need assistance with?".toList,
   "I\x27d be happy to explain that for you. Could you be more specific about which aspect you\x27d like me to focus on?".toList,
   "That\x27s a great question! To give you the most helpful answer, could you provide a bit more context about your situation?".toList,
   "I can help with image-related questions or generate images based on descriptions. What would you like me to create or explain about images?".toList]
  ++ fallbackPool

/-- `cleanAndValidateResponse(response, userInput)` — the spec's
`sanitize(raw, input)`: strip labels, replace echoes and too-short output by
a contextual fallback, then trim a residual echo of the input's first 20
characters.  `r` is the `Math.random()` draw used if the generic pool is
reached. -/
def cleanAndValidateResponse (response userInput : List Char) (r : Fin 5) : List Char :=
  let cleaned := stripLabels response
  if isEchoOrPoorResponse userInput cleaned then
    generateContextualFallback userInput r
  else if cleaned.length < 10 then
    generateContextualFallback userInput r
  else if userInput.length > 10
      ∧ jsIncludes (toLowerCase cleaned) ((toLowerCase userInput).take 20) then
    let parts := jsSplit (userInput.take 20) cleaned
    if parts.length > 1 ∧ (jsTrim (parts.getD 1 [])).length > 0 then
      jsTrim (parts.getD 1 [])
    else cleaned
  else cleaned

/-! ## AI gateway adapter (`GeminiAI.sendMessage`)

The `fetch` interaction is modelled by an explicit `GeminiOutcome` value;
the `try`/`catch` of the source becomes an `Except` pipeline whose error
values are the thrown `Error` messages, inspected by the catch handler. -/

/-- The line-start labels removed by the first pass of `cleanInputMessage`
(case-sensitive, no whitespace absorption). -/
def contextLabels : List (List Char) :=
  ["Previous conversation:".toList, "Current user message:".toList,
   "Context:".toList, "User Query:".toList, "Assistant Response:".toList]

/-- First-pass line transform of `cleanInputMessage`. -/
def stripLineLabel (line : List Char) : List Char :=
  match contextLabels.find? (fun lab => jsStartsWith line lab) with
  | some lab => line.drop lab.length
  | none => line

/-- Second-pass line transform of `cleanInputMessage`: drop a leading
`user:` / `assistant:` role tag and the whitespace run after it. -/
def stripRoleLabel (line : List Char) : List Char :=
  match (["user:".toList, "assistant:".toList]).find? (fun lab => jsStartsWith line lab) with
  | some lab => (line.drop lab.length).dropWhile Char.isWhitespace
  | none => line

/-- Third-pass line transform of `cleanInputMessage`: drop a leading
bracketed tag (lazily up to the first closing bracket) and the whitespace
after it. -/
def stripBracketTag (line : List Char) : List Char :=
  match line with
  | '[' :: rest =>
    let after := rest.dropWhile (fun c => c ≠ ']')
    if after = [] then line else after.tail.dropWhile Char.isWhitespace
  | _ => line

/-- `cleanInputMessage(message)`: three multi-line `replace` passes (each
anchored at line starts) with trims after the first two.  The `\s` runs of
the source regexes are modelled line-locally. -/
def cleanInputMessage (message : List Char) : List Char :=
  let pass1 := jsTrim (List.intercalate ['\n'] ((message.splitOn '\n').map stripLineLabel))
  let pass2 := jsTrim (List.intercalate ['\n'] ((pass1.splitOn '\n').map stripRoleLabel))
  List.intercalate ['\n'] ((pass2.splitOn '\n').map stripBracketTag)

/-- One `parts` entry of the Gemini response payload. -/
structure GeminiPart where
  text : List Char
deriving DecidableEq

/-- One candidate of the Gemini response payload.  `content = none` models
a missing `content` object or missing `parts` array; `some []` models an
empty `parts` array. -/
structure GeminiCandidate where
  content : Option (List GeminiPart)
deriving DecidableEq

/-- The parsed JSON body of a 2xx Gemini response. -/
structure GeminiData where
  candidates : Option (List GeminiCandidate)
deriving DecidableEq

/-- The possible outcomes of the `fetch` call inside `sendMessage`. -/
inductive GeminiOutcome where
  | fetchReject (errMsg : List Char)
  | httpError (status : Nat) (errorText : List Char)
  | response (data : GeminiData)
deriving DecidableEq

/-- The `Error` message thrown for a non-2xx response. -/
def geminiApiErrorMsg (status : Nat) (errorText : List Char) : List Char :=
  "Gemini API error: ".toList ++ (Nat.repr status).toList ++ " - ".toList ++ errorText

/-- The `try` block of `sendMessage` up to the sanitizer call: either the
raw candidate text, or the message of the `Error` the source throws. -/
def geminiExtractText : GeminiOutcome → Except (List Char) (List Char)
  | .fetchReject m => .error m
  | .httpError status errorText => .error (geminiApiErrorMsg status errorText)
  | .response d =>
    match d.candidates with
    | none => .error "No response candidates from Gemini".toList
    | some [] => .error "No response candidates from Gemini".toList
    | some (c :: _) =>
      match c.content with
      | none => .error "Invalid response structure from Gemini".toList
      | some [] => .error "Invalid response structure from Gemini".toList
      | some (p :: _) =>
        if (jsTrim p.text).length = 0 then .error "Empty response from Gemini".toList
        else .ok p.text

def apologyConnection : List Char :=
  "I\x27m having trouble connecting to the AI service. Please check your internet connection and try again.".toList

def apologyConfig : List Char :=
  "There seems to be an issue with the API configuration. Please contact support.".toList

def apologyLimit : List Char :=
  "I\x27ve reached my usage limit for now. Please try again in a moment.".toList

def apologyGeneric : List Char :=
  "I encountered an unexpected error. Please try rephrasing your question or try again.".toList

/-- The four human-readable apology strings `sendMessage` can resolve to
on failure. -/
def apologyStrings : List (List Char) :=
  [apologyConnection, apologyConfig, apologyLimit, apologyGeneric]

/-- The `catch` handler of `sendMessage`: map the caught error message to
an apology string. -/
def sendMessageCatch (errMsg : List Char) : List Char :=
  if jsIncludes errMsg "Failed to fetch".toList || jsIncludes errMsg "network".toList then
    apologyConnection
  else if jsIncludes errMsg "API key".toList then apologyConfig
  else if jsIncludes errMsg "quota".toList || jsIncludes errMsg "limit".toList then apologyLimit
  else apologyGeneric

/-- `GeminiAI.sendMessage(message)`: clean the input, run the request with
the given outcome, sanitize on success, apologize on failure. -/
def sendMessage (message : List Char) (outcome : GeminiOutcome) (r : Fin 5) : List Char :=
  let cleanInput := cleanInputMessage message
  match geminiExtractText outcome with
  | .ok t => cleanAndValidateResponse t cleanInput r
  | .error m => sendMessageCatch m

/-! ## Conversation context builder (`buildConversationContext` in
`EnhancedChatInterface.tsx`) -/

inductive Sender where
  | user
  | ai
deriving DecidableEq

/-- The fields of an in-memory chat message the context builder reads. -/
structure Msg where
  content : List Char
  sender : Sender
  session_id : List Char
deriving DecidableEq

inductive ContextRole where
  | user
  | assistant
deriving DecidableEq

/-- One `{role, content}` turn of the prompt context. -/
structure ContextTurn where
  role : ContextRole
  content : List Char
deriving DecidableEq

/-- The filter predicate of `buildConversationContext`: non-empty content,
not the welcome sentinel, no greeting fragment ("what can i help" /
"how can i help", case-insensitive), non-blank after trim. -/
def contextFilter (m : Msg) : Bool :=
  m.content ≠ ([] : List Char)
    && m.session_id ≠ "welcome".toList
    && !(jsIncludes (toLowerCase m.content) "what can i help".toList)
    && !(jsIncludes (toLowerCase m.content) "how can i help".toList)
    && (jsTrim m.content).length > 0

/-- `{role: sender === user ? user : assistant, content}`. -/
def toTurn (m : Msg) : ContextTurn :=
  { role := if m.sender = Sender.user then ContextRole.user else ContextRole.assistant,
    content := m.content }

/-- `buildConversationContext()`: filter, keep the last 6, map to turns. -/
def buildConversationContext (messages : List Msg) : List ContextTurn :=
  (lastN 6 (messages.filter contextFilter)).map toTurn

/-! ## Chat title derivation (`generateChatTitle` in `ChatSidebar.tsx`) -/

/-- `generateChatTitle(firstMessage)`: first 4 space-separated words of the
trimmed message, `...` appended when the raw message is longer than 30
characters, `New Chat` when the result would be empty. -/
def generateChatTitle (firstMessage : List Char) : List Char :=
  let words := (List.splitOn ' ' (jsTrim firstMessage)).take 4
  let title := List.intercalate [' '] words
  let title2 := if firstMessage.length > 30 then title ++ "...".toList else title
  if title2 = [] then "New Chat".toList else title2

/-- The title exactly as the claim words it: the first 4 words joined by
spaces, with an ellipsis appended exactly when the source message exceeds
30 characters (no other clause).  Stated separately so the code's
behaviour can be compared against it. -/
def claimTitle (firstMessage : List Char) : List Char :=
  List.intercalate [' '] ((List.splitOn ' ' (jsTrim firstMessage)).take 4)
    ++ (if firstMessage.length > 30 then "...".toList else [])

/-! ## Session/history manager (`deleteSession` and friends, messages-table
revision, with the selection reset and reload of
`EnhancedChatInterface.tsx`) -/

/-- A persisted `messages` row. -/
structure DBMessage where
  user_id : List Char
  content : List Char
  sender : Sender
  session_id : Option (List Char)
  created_at : Nat
deriving DecidableEq

/-- The client-side state the session manager manipulates: the persisted
rows, the sidebar session list, the active selection, the loaded history,
and a record of which bucket the history was last loaded for. -/
structure AppState where
  db : List DBMessage
  sessions : List (List Char)
  currentSessionId : Option (List Char)
  messages : List DBMessage
  historyLoadedFor : Option (Option (List Char))
deriving DecidableEq

/-- Insertion into a list kept ascending by `created_at`. -/
def insertByTime (m : DBMessage) : List DBMessage → List DBMessage
  | [] => [m]
  | x :: xs => if m.created_at < x.created_at then m :: x :: xs else x :: insertByTime m xs

/-- Sort rows ascending by `created_at` (the `order(created_at)` of the
history query). -/
def sortByCreatedAt (l : List DBMessage) : List DBMessage := l.foldr insertByTime []

/-- `loadChatHistory()`: this user's rows of the selected session bucket
(`session_id = sid`, or `session_id is null` when no session is selected),
ascending by creation time. -/
def loadChatHistory (db : List DBMessage) (uid : List Char) (sid : Option (List Char)) :
    List DBMessage :=
  sortByCreatedAt (db.filter (fun m => m.user_id = uid ∧ m.session_id = sid))

/-- `handleSessionSelect(sid)` together with the `useEffect` it triggers:
set the active selection and reload the history for that bucket. -/
def handleSessionSelect (st : AppState) (uid : List Char) (sid : Option (List Char)) :
    AppState :=
  { st with currentSessionId := sid,
            messages := loadChatHistory st.db uid sid,
            historyLoadedFor := some sid }

/-- `deleteSession(sessionId)`: on backend success (`ok`), delete this
user's messages of that session, prune the sidebar list, and, when the
deleted session was the active one, reset the selection to "no session"
(which reloads history for the null bucket).  On failure the state is
untouched. -/
def deleteSession (st : AppState) (uid sid : List Char) (ok : Bool) : AppState :=
  if ok then
    let db2 := st.db.filter (fun m => ¬(m.session_id = some sid ∧ m.user_id = uid))
    let st2 := { st with db := db2, sessions := st.sessions.filter (fun s => s ≠ sid) }
    if st.currentSessionId = some sid then handleSessionSelect st2 uid none else st2
  else st

/-! ## Concrete demonstration inputs used by the witnesses -/

/-- A history of one welcome sentinel followed by ten ordinary turns. -/
def demoHistory : List Msg :=
  [⟨"What can I help with?".toList, Sender.ai, "welcome".toList⟩,
   ⟨"m1 first question".toList, Sender.user, "s1".toList⟩,
   ⟨"m2 first answer".toList, Sender.ai, "s1".toList⟩,
   ⟨"m3 second question".toList, Sender.user, "s1".toList⟩,
   ⟨"m4 second answer".toList, Sender.ai, "s1".toList⟩,
   ⟨"m5 third question".toList, Sender.user, "s1".toList⟩,
   ⟨"m6 third answer".toList, Sender.ai, "s1".toList⟩,
   ⟨"m7 fourth question".toList, Sender.user, "s1".toList⟩,
   ⟨"m8 fourth answer".toList, Sender.ai, "s1".toList⟩,
   ⟨"m9 fifth question".toList, Sender.user, "s1".toList⟩,
   ⟨"m10 fifth answer".toList, Sender.ai, "s1".toList⟩]

/-- A user-authored message containing a greeting fragment. -/
def demoHelpMsg : Msg :=
  ⟨"How can I help you today?".toList, Sender.user, "s1".toList⟩

/-- A client state with two sessions, the first of which is active. -/
def demoState : AppState :=
  { db := [⟨"u1".toList, "hello".toList, Sender.user, some "s".toList, 1⟩,
           ⟨"u1".toList, "hi there, how can I help?".toList, Sender.ai, some "s".toList, 2⟩,
           ⟨"u1".toList, "other chat".toList, Sender.user, some "t".toList, 3⟩,
           ⟨"u1".toList, "legacy".toList, Sender.user, none, 0⟩],
    sessions := ["s".toList, "t".toList],
    currentSessionId := some "s".toList,
    messages := [],
    historyLoadedFor := none }

/-! ## Character-level lemmas -/

theorem toNat_ofNat_valid (n : Nat) (h : n.isValidChar) : (Char.ofNat n).toNat = n := by
  simp [Char.ofNat, h, Char.ofNatAux, Char.toNat, UInt32.toNat, BitVec.toNat_ofNatLt]

theorem notWs_of_gt (c : Char) (h : 64 < c.toNat) : c.isWhitespace = false := by
  simp only [Char.isWhitespace, Bool.or_eq_false_iff, decide_eq_false_iff_not]
  refine ⟨⟨⟨?_, ?_⟩, ?_⟩, ?_⟩ <;> intro he <;> subst he <;> exact absurd h (by decide)

/-- Lower-casing a character does not change whether it is whitespace. -/
theorem isWs_jsLowerChar (c : Char) : (jsLowerChar c).isWhitespace = c.isWhitespace := by
  unfold jsLowerChar
  split
  · rename_i h
    have hv : (c.toNat + 32).isValidChar := Or.inl (by omega)
    have ht : (Char.ofNat (c.toNat + 32)).toNat = c.toNat + 32 := toNat_ofNat_valid _ hv
    rw [notWs_of_gt _ (by rw [ht]; omega), notWs_of_gt _ (by omega : 64 < c.toNat)]
  · rfl

theorem map_lower_dropWhile (l : List Char) :
    (l.map jsLowerChar).dropWhile Char.isWhitespace
      = (l.dropWhile Char.isWhitespace).map jsLowerChar := by
  have hp : (Char.isWhitespace ∘ jsLowerChar) = Char.isWhitespace :=
    funext isWs_jsLowerChar
  rw [List.dropWhile_map, hp]

/-- Trimming commutes with lower-casing, so the claim's
`raw.trim().toLowerCase()` and the code's `raw.toLowerCase().trim()`
agree. -/
theorem toLowerCase_jsTrim (s : List Char) :
    toLowerCase (jsTrim s) = jsTrim (toLowerCase s) := by
  unfold toLowerCase jsTrim
  rw [List.map_reverse, ← map_lower_dropWhile, List.map_reverse, ← map_lower_dropWhile]

/-! ## Levenshtein: properties of the textbook recursion -/

theorem levSpec_nil_left (v : List Char) : levSpec [] v = v.length := by
  simp [levSpec]

theorem levSpec_nil_right (u : List Char) : levSpec u [] = u.length := by
  cases u <;> simp [levSpec]

theorem levSpec_self (u : List Char) : levSpec u u = 0 := by
  induction u with
  | nil => simp [levSpec]
  | cons x xs ih => simp [levSpec, ih]

theorem levSpec_symm_aux :
    ∀ n, ∀ u v : List Char, u.length + v.length ≤ n → levSpec u v = levSpec v u := by
  intro n
  induction n with
  | zero =>
    intro u v h
    cases u <;> cases v <;> simp_all [levSpec]
  | succ n ih =>
    intro u v h
    cases u with
    | nil => rw [levSpec_nil_left, levSpec_nil_right]
    | cons x u =>
      cases v with
      | nil => rw [levSpec_nil_left, levSpec_nil_right]
      | cons y v =>
        simp only [List.length_cons] at h
        by_cases hxy : x = y
        · subst hxy
          simp only [levSpec, if_pos rfl]
          exact ih u v (by omega)
        · have h1 : levSpec u v = levSpec v u := ih u v (by omega)
          have h2 : levSpec (x :: u) v = levSpec v (x :: u) :=
            ih (x :: u) v (by simp only [List.length_cons]; omega)
          have h3 : levSpec u (y :: v) = levSpec (y :: v) u :=
            ih u (y :: v) (by simp only [List.length_cons]; omega)
          simp only [levSpec, if_neg hxy, if_neg (Ne.symm hxy)]
          rw [h1, h2, h3, min_comm (levSpec v (x :: u)) (levSpec (y :: v) u)]

theorem levSpec_symm (u v : List Char) : levSpec u v = levSpec v u :=
  levSpec_symm_aux (u.length + v.length) u v le_rfl

theorem levSpec_le_max_aux :
    ∀ n, ∀ u v : List Char, u.length + v.length ≤ n →
      levSpec u v ≤ max u.length v.length := by
  intro n
  induction n with
  | zero =>
    intro u v h
    cases u <;> cases v <;> simp_all [levSpec]
  | succ n ih =>
    intro u v h
    cases u with
    | nil => simp [levSpec_nil_left]
    | cons x u =>
      cases v with
      | nil => simp [levSpec_nil_right]
      | cons y v =>
        simp only [List.length_cons] at h
        simp only [levSpec, List.length_cons]
        have hb := ih u v (by omega)
        rw [le_max_iff] at hb
        by_cases hxy : x = y
        · rw [if_pos hxy, le_max_iff]
          omega
        · rw [if_neg hxy, le_max_iff]
          have hm : min (levSpec u v) (min (levSpec (x :: u) v) (levSpec u (y :: v)))
              ≤ levSpec u v := min_le_left _ _
          omega

theorem levSpec_le_max (u v : List Char) :
    levSpec u v ≤ max u.length v.length :=
  levSpec_le_max_aux (u.length + v.length) u v le_rfl

/-- Distribute `1 +` into a three-way minimum. -/
theorem one_add_min3 (p q r : Nat) :
    1 + min p (min q r) = min (1 + p) (min (1 + q) (1 + r)) := by
  rw [min_add_add_left, min_add_add_left]

/-- Transposing the 3×3 grid underneath two nested three-way minima. -/
theorem min9_transpose (a b c d e f g h i : Nat) :
    min (1 + min a (min b c)) (min (1 + min d (min e f)) (1 + min g (min h i)))
      = min (1 + min a (min d g)) (min (1 + min b (min e h)) (1 + min c (min f i))) := by
  simp only [one_add_min3]
  apply le_antisymm <;> simp only [le_min_iff, min_le_iff] <;> omega

/-- The Levenshtein recursion also holds at the last characters of both
strings (the form the DP matrix recurrence uses). -/
theorem levSpec_snoc_aux :
    ∀ n, ∀ (u v : List Char) (x y : Char), u.length + v.length ≤ n →
      levSpec (u ++ [x]) (v ++ [y]) =
        if x = y then levSpec u v
        else 1 + min (levSpec u v) (min (levSpec (u ++ [x]) v) (levSpec u (v ++ [y]))) := by
  intro n
  induction n with
  | zero =>
    intro u v x y h
    rw [Nat.le_zero, Nat.add_eq_zero] at h
    obtain ⟨hu, hv⟩ := h
    rw [List.length_eq_zero] at hu hv
    subst hu; subst hv
    simp [levSpec]
  | succ n ih =>
    intro u v x y h
    cases u with
    | nil =>
      cases v with
      | nil => simp [levSpec]
      | cons b v =>
        simp only [List.length_cons, List.length_nil] at h
        have ih1 := ih [] v x y (by simp; omega)
        simp only [List.nil_append] at ih1 ⊢
        simp only [List.cons_append]
        simp only [levSpec, levSpec_nil_left, List.length_append, List.length_cons,
          List.length_nil, ih1]
        by_cases hxb : x = b <;> by_cases hxy : x = y <;>
          simp only [if_pos, if_neg, hxb, hxy, ite_true, ite_false] <;>
          simp only [min_def] <;> split_ifs <;> omega
    | cons a u =>
      cases v with
      | nil =>
        simp only [List.length_cons, List.length_nil] at h
        have ih1 := ih u [] x y (by simp; omega)
        simp only [List.nil_append] at ih1 ⊢
        simp only [List.cons_append]
        simp only [levSpec, levSpec_nil_right, List.length_append, List.length_cons,
          List.length_nil, ih1]
        by_cases hay : a = y <;> by_cases hxy : x = y <;>
          simp only [if_pos, if_neg, hay, hxy, ite_true, ite_false] <;>
          simp only [min_def] <;> split_ifs <;> omega
      | cons b v =>
        simp only [List.length_cons] at h
        have ih1 := ih u v x y (by omega)
        have ih2 := ih (a :: u) v x y (by simp only [List.length_cons]; omega)
        have ih3 := ih u (b :: v) x y (by simp only [List.length_cons]; omega)
        simp only [List.cons_append] at ih2 ih3 ⊢
        simp only [levSpec, ih1, ih2, ih3]
        by_cases hab : a = b <;> by_cases hxy : x = y <;>
          simp only [if_pos, if_neg, hab, hxy, ite_true, ite_false]
        · rw [min9_transpose]

theorem levSpec_snoc (u v : List Char) (x y : Char) :
    levSpec (u ++ [x]) (v ++ [y]) =
      if x = y then levSpec u v
      else 1 + min (levSpec u v) (min (levSpec (u ++ [x]) v) (levSpec u (v ++ [y]))) :=
  levSpec_snoc_aux (u.length + v.length) u v x y le_rfl

/-- Levenshtein distance is invariant under reversing both strings. -/
theorem levSpec_rev_aux :
    ∀ n, ∀ u v : List Char, u.length + v.length ≤ n →
      levSpec u.reverse v.reverse = levSpec u v := by
  intro n
  induction n with
  | zero =>
    intro u v h
    rw [Nat.le_zero, Nat.add_eq_zero] at h
    obtain ⟨hu, hv⟩ := h
    rw [List.length_eq_zero] at hu hv
    subst hu; subst hv
    rfl
  | succ n ih =>
    intro u v h
    cases u with
    | nil => simp [levSpec_nil_left]
    | cons x u =>
      cases v with
      | nil => simp [levSpec_nil_right]
      | cons y v =>
        simp only [List.length_cons] at h
        rw [List.reverse_cons, List.reverse_cons, levSpec_snoc]
        have h1 : levSpec u.reverse v.reverse = levSpec u v := ih u v (by omega)
        have h2 : levSpec (u.reverse ++ [x]) v.reverse = levSpec (x :: u) v := by
          rw [← List.reverse_cons]
          exact ih (x :: u) v (by simp only [List.length_cons]; omega)
        have h3 : levSpec u.reverse (v.reverse ++ [y]) = levSpec u (y :: v) := by
          rw [← List.reverse_cons]
          exact ih u (y :: v) (by simp only [List.length_cons]; omega)
        rw [h1, h2, h3]
        simp only [levSpec]

theorem levSpec_rev (u v : List Char) :
    levSpec u.reverse v.reverse = levSpec u v :=
  levSpec_rev_aux (u.length + v.length) u v le_rfl

/-! ## Levenshtein: the iterative DP computes the textbook recursion -/

theorem rowFor_head (q r xs : List Char) : (rowFor q r xs).headD 0 = levSpec r q := by
  cases xs <;> rfl

theorem rowFor_eq_head_tail (q r xs : List Char) :
    rowFor q r xs = levSpec r q :: (rowFor q r xs).tail := by
  cases xs <;> rfl

theorem rowFor_ne_nil (q r xs : List Char) : rowFor q r xs ≠ [] := by
  cases xs <;> simp [rowFor]

/-- The cell computed by `levNext` is the edit-distance value the DP row is
supposed to hold. -/
theorem levNext_cell (q r : List Char) (x c2 : Char) :
    (if c2 = x then levSpec r q
     else min (levSpec r q + 1) (min (levSpec r (c2 :: q) + 1) (levSpec (x :: r) q + 1)))
      = levSpec (x :: r) (c2 :: q) := by
  simp only [levSpec]
  by_cases hcx : c2 = x
  · rw [if_pos hcx, if_pos hcx.symm]
  · rw [if_neg hcx, if_neg (fun hh => hcx hh.symm), one_add_min3]
    apply le_antisymm <;> simp only [le_min_iff, min_le_iff] <;> omega

theorem levNext_rowFor :
    ∀ (xs r q : List Char) (c2 : Char),
      levNext c2 xs (rowFor q r xs) (levSpec r (c2 :: q)) = (rowFor (c2 :: q) r xs).tail := by
  intro xs
  induction xs with
  | nil => intro r q c2; rfl
  | cons x xs ih =>
    intro r q c2
    show levNext c2 (x :: xs) (levSpec r q :: rowFor q (x :: r) xs) (levSpec r (c2 :: q))
        = (rowFor (c2 :: q) r (x :: xs)).tail
    simp only [levNext, rowFor_head]
    rw [levNext_cell, ih (x :: r) q c2]
    exact (rowFor_eq_head_tail (c2 :: q) (x :: r) xs).symm

theorem levStep_rowFor (s1 q : List Char) (c2 : Char) :
    levStep s1 (rowFor q [] s1) c2 = rowFor (c2 :: q) [] s1 := by
  unfold levStep
  rw [rowFor_head, levSpec_nil_left]
  have h1 : q.length + 1 = levSpec [] (c2 :: q) := by
    rw [levSpec_nil_left, List.length_cons]
  rw [h1, levNext_rowFor]
  exact (rowFor_eq_head_tail (c2 :: q) [] s1).symm

theorem foldl_levStep (s1 : List Char) :
    ∀ (s2r q : List Char),
      List.foldl (levStep s1) (rowFor q [] s1) s2r = rowFor (s2r.reverse ++ q) [] s1 := by
  intro s2r
  induction s2r with
  | nil => intro q; simp
  | cons c tl ih =>
    intro q
    rw [List.foldl_cons, levStep_rowFor, ih]
    congr 1
    simp [List.reverse_cons, List.append_assoc]

theorem rowFor_nil_snd : ∀ (xs r : List Char),
    rowFor ([] : List Char) r xs = List.range' r.length (xs.length + 1) := by
  intro xs
  induction xs with
  | nil =>
    intro r
    simp [rowFor, levSpec_nil_right, List.range']
  | cons x xs ih =>
    intro r
    simp only [rowFor, levSpec_nil_right, List.length_cons]
    rw [ih (x :: r)]
    simp [List.range'_succ]

theorem getLastD_irrel (l : List Nat) (hl : l ≠ []) (d1 d2 : Nat) :
    l.getLastD d1 = l.getLastD d2 := by
  cases l with
  | nil => exact absurd rfl hl
  | cons a l => rfl

theorem rowFor_getLastD : ∀ (xs r q : List Char),
    (rowFor q r xs).getLastD 0 = levSpec (xs.reverse ++ r) q := by
  intro xs
  induction xs with
  | nil => intro r q; simp [rowFor]
  | cons x xs ih =>
    intro r q
    show (levSpec r q :: rowFor q (x :: r) xs).getLastD 0 = _
    rw [List.getLastD_cons, getLastD_irrel _ (rowFor_ne_nil q (x :: r) xs) _ 0, ih (x :: r) q]
    simp [List.reverse_cons, List.append_assoc]

/-- The program's row-by-row DP computes exactly the textbook Levenshtein
distance. -/
theorem levenshteinDistance_eq_levSpec (s1 s2 : List Char) :
    levenshteinDistance s1 s2 = levSpec s1 s2 := by
  unfold levenshteinDistance levAll
  have h0 : List.range (s1.length + 1) = rowFor [] [] s1 := by
    rw [rowFor_nil_snd s1 [], List.range_eq_range', List.length_nil]
  rw [h0, foldl_levStep, rowFor_getLastD, List.append_nil, List.append_nil, levSpec_rev]

theorem levenshteinDistance_symm (a b : List Char) :
    levenshteinDistance a b = levenshteinDistance b a := by
  rw [levenshteinDistance_eq_levSpec, levenshteinDistance_eq_levSpec, levSpec_symm]

theorem levenshteinDistance_self (a : List Char) : levenshteinDistance a a = 0 := by
  rw [levenshteinDistance_eq_levSpec, levSpec_self]

theorem levenshteinDistance_le_max (a b : List Char) :
    levenshteinDistance a b ≤ max a.length b.length := by
  rw [levenshteinDistance_eq_levSpec]
  exact levSpec_le_max a b

/-! ## Properties of `calculateSimilarity` -/

/-- When at least one input is non-empty, `calculateSimilarity` is the
quotient `(max(|a|,|b|) - editDistance(a,b)) / max(|a|,|b|)`. -/
theorem calculateSimilarity_formula (a b : List Char) (h : max a.length b.length ≠ 0) :
    calculateSimilarity a b
      = ((max a.length b.length : ℚ) - (levenshteinDistance a b : ℚ))
          / (max a.length b.length : ℚ) := by
  simp only [calculateSimilarity]
  by_cases hab : a.length > b.length
  · have hmax : max a.length b.length = a.length := max_eq_left (le_of_lt hab)
    have hq : max (a.length : ℚ) (b.length : ℚ) = (a.length : ℚ) :=
      max_eq_left (by exact_mod_cast le_of_lt hab)
    rw [hmax] at h
    simp only [if_pos hab]
    rw [hq, if_neg h, Rat.mkRat_eq_div]
    push_cast
    ring
  · have hmax : max a.length b.length = b.length := max_eq_right (not_lt.mp hab)
    have hq : max (a.length : ℚ) (b.length : ℚ) = (b.length : ℚ) :=
      max_eq_right (by exact_mod_cast not_lt.mp hab)
    rw [hmax] at h
    simp only [if_neg hab]
    rw [hq, if_neg h, Rat.mkRat_eq_div, levenshteinDistance_symm b a]
    push_cast
    ring

theorem calculateSimilarity_nonneg (a b : List Char) : 0 ≤ calculateSimilarity a b := by
  by_cases h : max a.length b.length = 0
  · rw [Nat.max_eq_zero_iff, List.length_eq_zero, List.length_eq_zero] at h
    obtain ⟨ha, hb⟩ := h
    subst ha; subst hb
    decide
  · rw [calculateSimilarity_formula a b h]
    have hd : (levenshteinDistance a b : ℚ) ≤ (max a.length b.length : ℚ) := by
      exact_mod_cast levenshteinDistance_le_max a b
    apply div_nonneg
    · linarith
    · positivity

theorem calculateSimilarity_le_one (a b : List Char) : calculateSimilarity a b ≤ 1 := by
  by_cases h : max a.length b.length = 0
  · rw [Nat.max_eq_zero_iff, List.length_eq_zero, List.length_eq_zero] at h
    obtain ⟨ha, hb⟩ := h
    subst ha; subst hb
    decide
  · rw [calculateSimilarity_formula a b h]
    have hd : 0 ≤ (levenshteinDistance a b : ℚ) := by positivity
    have hm : (0 : ℚ) < (max a.length b.length : ℚ) := by
      have h2 : 0 < max a.length b.length := Nat.pos_of_ne_zero h
      exact_mod_cast h2
    rw [div_le_one hm]
    linarith

theorem calculateSimilarity_self (s : List Char) : calculateSimilarity s s = 1 := by
  cases s with
  | nil => decide
  | cons c cs =>
    have h : max (c :: cs).length (c :: cs).length ≠ 0 := by simp
    rw [calculateSimilarity_formula _ _ h, levenshteinDistance_self]
    have hM : (max (c :: cs).length (c :: cs).length : ℚ) ≠ 0 := by
      rw [max_self]
      exact_mod_cast (by simp : (c :: cs).length ≠ 0)
    push_cast
    field_simp

/-! ## Claim C4 -/

/-- Claim C4: `calculateSimilarity(a, b)` equals
`(max(|a|,|b|) - editDistance(a,b)) / max(|a|,|b|)` (whenever that quotient
is defined, i.e. not both inputs empty), lies in `[0, 1]`, equals `1.0`
when both inputs are empty, and equals `0.0` on `("", "abc")`. -/
theorem claim_C4 (a b : List Char) :
    (max a.length b.length ≠ 0 →
      calculateSimilarity a b
        = ((max a.length b.length : ℚ) - (levenshteinDistance a b : ℚ))
            / (max a.length b.length : ℚ))
    ∧ 0 ≤ calculateSimilarity a b
    ∧ calculateSimilarity a b ≤ 1
    ∧ calculateSimilarity [] [] = 1
    ∧ calculateSimilarity [] "abc".toList = 0 :=
  ⟨calculateSimilarity_formula a b, calculateSimilarity_nonneg a b,
   calculateSimilarity_le_one a b, by decide, by decide⟩

/-- Witness for C4 at a concrete pair of strings. -/
theorem claim_C4_witness :
    calculateSimilarity "ab".toList "abc".toList
      = ((max ("ab".toList).length ("abc".toList).length : ℚ)
          - (levenshteinDistance "ab".toList "abc".toList : ℚ))
        / (max ("ab".toList).length ("abc".toList).length : ℚ) :=
  (claim_C4 "ab".toList "abc".toList).1 (by decide)

/-! ## Claim C5 -/

/-- Claim C5: the iterative `levenshteinDistance` computes the classic
Levenshtein edit distance (insertion, deletion, substitution at unit cost,
here the textbook recursion `levSpec`); `editDistance("kitten","sitting")`
is `3`; and `similarity(s, s) = 1.0` for every string `s`. -/
theorem claim_C5 :
    (∀ a b : List Char, levenshteinDistance a b = levSpec a b)
    ∧ levenshteinDistance "kitten".toList "sitting".toList = 3
    ∧ ∀ s : List Char, calculateSimilarity s s = 1 :=
  ⟨levenshteinDistance_eq_levSpec, by decide, calculateSimilarity_self⟩

/-! ## Claims about the sanitizer (C1, C2, C3) -/

/-- Every string `generateContextualFallback` can return is non-empty. -/
theorem generateContextualFallback_ne_nil (m : List Char) (r : Fin 5) :
    generateContextualFallback m r ≠ [] := by
  simp only [generateContextualFallback]
  have hr : fallbackPool.getD r.val [] ≠ [] := by
    fin_cases r <;> decide
  split_ifs <;> first | decide | exact hr

/-- Claim C1, amended: `sanitize` never returns an empty string.  (The
original claim's second half — never under 10 characters — is refuted by
`claim_C1_counterexample`: the residual-echo trim runs after the length
check and can leave a shorter remainder.) -/
theorem claim_C1 (raw input : List Char) (r : Fin 5) :
    cleanAndValidateResponse raw input r ≠ [] := by
  simp only [cleanAndValidateResponse]
  split_ifs with h1 h2 h3 h4
  · exact generateContextualFallback_ne_nil input r
  · exact generateContextualFallback_ne_nil input r
  · have hlen := h4.2
    intro heq
    rw [heq] at hlen
    simp at hlen
  · intro heq
    rw [heq] at h2
    simp at h2
  · intro heq
    rw [heq] at h2
    simp at h2

/-- Counterexample to claim C1 as stated: on this raw response and input the
sanitizer returns the single character `x`, a string of length 1 < 10. -/
theorem claim_C1_counterexample :
    cleanAndValidateResponse
        "zzzzzzzzzzzzzzzzzzzzzzzzzzzzzzabcdefghijkx".toList "abcdefghijk".toList 0
      = "x".toList
    ∧ ("x".toList).length < 10 := by
  constructor
  · decide
  · decide

/-- Claim C2, amended: when `raw.trim().toLowerCase()` equals
`input.trim().toLowerCase()` and no label prefix is stripped from `raw`,
`sanitize` returns the contextual fallback generated from the input. -/
theorem claim_C2 (raw input : List Char) (r : Fin 5)
    (hstrip : stripLabels raw = raw)
    (heq : toLowerCase (jsTrim raw) = toLowerCase (jsTrim input)) :
    cleanAndValidateResponse raw input r = generateContextualFallback input r := by
  have h2 : jsTrim (toLowerCase input) = jsTrim (toLowerCase raw) := by
    rw [← toLowerCase_jsTrim, ← toLowerCase_jsTrim, heq]
  have hecho : isEchoOrPoorResponse input raw = true := by
    unfold isEchoOrPoorResponse
    simp [h2]
  simp [cleanAndValidateResponse, hstrip, hecho]

/-- Witness for the amended C2 at concrete strings. -/
theorem claim_C2_witness :
    cleanAndValidateResponse "Hello There Everyone".toList "hello there everyone  ".toList 2
      = generateContextualFallback "hello there everyone  ".toList 2 :=
  claim_C2 "Hello There Everyone".toList "hello there everyone  ".toList 2
    (by decide) (by decide)

/-- Counterexample to claim C2 as stated.  First: with
`raw = input = "response: aaaaaaaaaaaa"` (equal, hence trim/lower-equal),
the sanitizer strips the `response:` label and returns the remainder
`"aaaaaaaaaaaa"`, which is not a fallback.  Second: when `raw = input` is
itself one of the fallback templates (here the `help` template), the
sanitizer returns `raw` itself, contradicting "never returns raw". -/
theorem claim_C2_counterexample :
    (cleanAndValidateResponse "response: aaaaaaaaaaaa".toList
        "response: aaaaaaaaaaaa".toList 0 = "aaaaaaaaaaaa".toList
      ∧ "aaaaaaaaaaaa".toList ∉ fallbackStrings)
    ∧ cleanAndValidateResponse
        "I\x27m here to help! Could you provide more details about what you need assistance with?".toList
        "I\x27m here to help! Could you provide more details about what you need assistance with?".toList
        2
      = "I\x27m here to help! Could you provide more details about what you need assistance with?".toList := by
  refine ⟨⟨?_, ?_⟩, ?_⟩ <;> decide

/-- Claim C3, amended: when the prefix-stripped response, lower-cased and
trimmed, starts with the lower-cased trimmed input and is strictly less
than 30 characters longer than it, `sanitize` returns the contextual
fallback.  (At exactly 30 extra characters — the claim's `≤ len(input)+30`
boundary — the code's strict `<` does not fire; see the counterexample.) -/
theorem claim_C3 (raw input : List Char) (r : Fin 5)
    (hpre : jsStartsWith (jsTrim (toLowerCase (stripLabels raw)))
        (jsTrim (toLowerCase input)) = true)
    (hlen : (jsTrim (toLowerCase (stripLabels raw))).length
        < (jsTrim (toLowerCase input)).length + 30) :
    cleanAndValidateResponse raw input r = generateContextualFallback input r := by
  have hecho : isEchoOrPoorResponse input (stripLabels raw) = true := by
    unfold isEchoOrPoorResponse
    by_cases heq : jsTrim (toLowerCase input) = jsTrim (toLowerCase (stripLabels raw))
    · simp [heq]
    · rw [if_neg heq, if_pos ⟨hpre, hlen⟩]
  simp [cleanAndValidateResponse, hecho]

/-- Witness for the amended C3 at concrete strings. -/
theorem claim_C3_witness :
    cleanAndValidateResponse "hello world, nice!".toList "hello world".toList 0
      = generateContextualFallback "hello world".toList 0 :=
  claim_C3 "hello world, nice!".toList "hello world".toList 0 (by decide) (by decide)

/-- Counterexample to claim C3 as stated: the response starts with the
input and is exactly 30 characters longer (so `len(raw) ≤ len(input)+30`
holds), yet the sanitizer returns the trimmed remainder of the echo split,
not a fallback. -/
theorem claim_C3_counterexample :
    jsStartsWith "hello worldqqqqqqqqqqqqqqqqqqqqqqqqqqqqqq".toList "hello world".toList = true
    ∧ ("hello worldqqqqqqqqqqqqqqqqqqqqqqqqqqqqqq".toList).length
        = ("hello world".toList).length + 30
    ∧ cleanAndValidateResponse "hello worldqqqqqqqqqqqqqqqqqqqqqqqqqqqqqq".toList
        "hello world".toList 0 = "qqqqqqqqqqqqqqqqqqqqqqqqqqqqqq".toList
    ∧ "qqqqqqqqqqqqqqqqqqqqqqqqqqqqqq".toList ∉ fallbackStrings := by
  refine ⟨?_, ?_, ?_, ?_⟩ <;> decide

/-! ## Claim C6 -/

/-- Claim C6: for every message history with exactly 10 turns passing the
welcome/greeting/empty filter, `buildConversationContext` (window size 6)
returns exactly the last 6 such turns, mapped to `{role, content}`, in
their original order. -/
theorem claim_C6 (msgs : List Msg) (h : (msgs.filter contextFilter).length = 10) :
    buildConversationContext msgs = ((msgs.filter contextFilter).drop 4).map toTurn
    ∧ (buildConversationContext msgs).length = 6 := by
  unfold buildConversationContext lastN
  rw [h]
  constructor
  · rfl
  · rw [List.length_map, List.length_drop, h]

/-- Witness for C6: a concrete history of a welcome sentinel plus 10 good
turns. -/
theorem claim_C6_witness :
    buildConversationContext demoHistory
      = ((demoHistory.filter contextFilter).drop 4).map toTurn
    ∧ (buildConversationContext demoHistory).length = 6 :=
  claim_C6 demoHistory (by decide)

/-! ## Claim C10 -/

/-- Claim C10: `buildConversationContext` drops every message whose content
contains "what can i help" or "how can i help" (case-insensitive),
regardless of sender — a user-authored message with such a phrase is
silently excluded from the context window. -/
theorem claim_C10 :
    (∀ m : Msg,
      (jsIncludes (toLowerCase m.content) "what can i help".toList = true
        ∨ jsIncludes (toLowerCase m.content) "how can i help".toList = true) →
      contextFilter m = false)
    ∧ ∀ (msgs : List Msg) (m : Msg),
        (jsIncludes (toLowerCase m.content) "what can i help".toList = true
          ∨ jsIncludes (toLowerCase m.content) "how can i help".toList = true) →
        toTurn m ∉ buildConversationContext msgs := by
  have hfilter : ∀ m : Msg,
      (jsIncludes (toLowerCase m.content) "what can i help".toList = true
        ∨ jsIncludes (toLowerCase m.content) "how can i help".toList = true) →
      contextFilter m = false := by
    intro m hm
    unfold contextFilter
    rcases hm with h | h <;> rw [h] <;> simp
  refine ⟨hfilter, ?_⟩
  intro msgs m hm hmem
  unfold buildConversationContext at hmem
  rw [List.mem_map] at hmem
  obtain ⟨m2, hm2mem, hm2eq⟩ := hmem
  have hm2f : m2 ∈ msgs.filter contextFilter := by
    unfold lastN at hm2mem
    exact List.mem_of_mem_drop hm2mem
  have hft : contextFilter m2 = true := (List.mem_filter.mp hm2f).2
  have hcontent : m2.content = m.content := congrArg ContextTurn.content hm2eq
  have hff : contextFilter m2 = false := by
    apply hfilter
    rw [hcontent]
    exact hm
  rw [hff] at hft
  exact Bool.noConfusion hft

/-- Witness for C10: a concrete user message with a greeting phrase is
filtered out. -/
theorem claim_C10_witness :
    contextFilter demoHelpMsg = false
    ∧ toTurn demoHelpMsg ∉ buildConversationContext [demoHelpMsg] :=
  ⟨claim_C10.1 demoHelpMsg (Or.inr (by decide)),
   claim_C10.2 [demoHelpMsg] demoHelpMsg (Or.inr (by decide))⟩

/-! ## Claim C7 -/

/-- Claim C7: whenever the external text-generation call fails — the fetch
rejects, the response is non-2xx, the candidates are missing or empty, the
candidate structure is invalid, or the text is empty — `sendMessage`
resolves to one of the four defined apology strings (and, being a total
function, never throws or rejects). -/
theorem claim_C7 (message : List Char) (outcome : GeminiOutcome) (r : Fin 5)
    (h : ∃ e, geminiExtractText outcome = Except.error e) :
    sendMessage message outcome r ∈ apologyStrings := by
  obtain ⟨e, he⟩ := h
  have hsend : sendMessage message outcome r = sendMessageCatch e := by
    unfold sendMessage
    rw [he]
  rw [hsend]
  unfold sendMessageCatch
  split_ifs <;> simp [apologyStrings]

/-- Witness for C7: a simulated 500 response resolves to an apology. -/
theorem claim_C7_witness :
    sendMessage "Hello".toList
        (GeminiOutcome.httpError 500 "Internal Server Error".toList) 0
      ∈ apologyStrings :=
  claim_C7 "Hello".toList (GeminiOutcome.httpError 500 "Internal Server Error".toList) 0
    ⟨geminiApiErrorMsg 500 "Internal Server Error".toList, rfl⟩

/-! ## Claim C8 -/

/-- Claim C8, amended: whenever the claim's own derivation (first four
words joined by spaces, ellipsis appended exactly when the message exceeds
30 characters) is non-empty — in particular for every message containing a
non-whitespace character — `generateChatTitle` returns exactly that
derivation; and the quantum-computing example titles as the claim says.
(The original unrestricted claim fails on whitespace-only messages, which
fall back to `New Chat`; see the counterexample.) -/
theorem claim_C8 (msg : List Char) (h : claimTitle msg ≠ []) :
    generateChatTitle msg = claimTitle msg
    ∧ generateChatTitle "Tell me about quantum computing and its applications".toList
        = "Tell me about quantum...".toList := by
  refine ⟨?_, by decide⟩
  simp only [generateChatTitle]
  have ht : (if msg.length > 30
      then List.intercalate [' '] ((List.splitOn ' ' (jsTrim msg)).take 4) ++ "...".toList
      else List.intercalate [' '] ((List.splitOn ' ' (jsTrim msg)).take 4)) = claimTitle msg := by
    unfold claimTitle
    split_ifs <;> simp
  rw [ht, if_neg h]

/-- Witness for the amended C8 at a concrete short message. -/
theorem claim_C8_witness :
    generateChatTitle "Hello world".toList = claimTitle "Hello world".toList
    ∧ generateChatTitle "Tell me about quantum computing and its applications".toList
        = "Tell me about quantum...".toList :=
  claim_C8 "Hello world".toList (by decide)

/-- Counterexample to claim C8 as stated: the whitespace-only (but
non-empty) message `" "` titles as `New Chat`, not as the claim's
derivation (which is empty). -/
theorem claim_C8_counterexample :
    generateChatTitle " ".toList = "New Chat".toList
    ∧ claimTitle " ".toList = [] := by
  constructor <;> decide

/-! ## Claim C9 -/

/-- Claim C9: `deleteSession(sessionId)` (on backend success) removes every
message of this user tagged with that session id, and when the deleted
session is the currently active one, the active selection is reset to "no
session" and the history is subsequently loaded for the null-session
bucket. -/
theorem claim_C9 (st : AppState) (uid sid : List Char)
    (hcur : st.currentSessionId = some sid) :
    (∀ m ∈ (deleteSession st uid sid true).db,
        ¬(m.session_id = some sid ∧ m.user_id = uid))
    ∧ (deleteSession st uid sid true).currentSessionId = none
    ∧ (deleteSession st uid sid true).historyLoadedFor = some none
    ∧ (deleteSession st uid sid true).messages
        = loadChatHistory (deleteSession st uid sid true).db uid none := by
  simp only [deleteSession, if_pos hcur, if_true]
  refine ⟨?_, rfl, rfl, rfl⟩
  intro m hm
  have h2 : ¬m.session_id = some sid ∨ ¬m.user_id = uid := by
    simpa using (List.mem_filter.mp hm).2
  intro hc
  rcases h2 with h3 | h3
  · exact h3 hc.1
  · exact h3 hc.2

/-- Witness for C9 at a concrete state whose active session is deleted. -/
theorem claim_C9_witness :
    (∀ m ∈ (deleteSession demoState "u1".toList "s".toList true).db,
        ¬(m.session_id = some "s".toList ∧ m.user_id = "u1".toList))
    ∧ (deleteSession demoState "u1".toList "s".toList true).currentSessionId = none
    ∧ (deleteSession demoState "u1".toList "s".toList true).historyLoadedFor = some none
    ∧ (deleteSession demoState "u1".toList "s".toList true).messages
        = loadChatHistory (deleteSession demoState "u1".toList "s".toList true).db
            "u1".toList none :=
  claim_C9 demoState "u1".toList "s".toList rfl

end SarvaMind
